import Mathlib

set_option maxHeartbeats 1000000
set_option maxRecDepth 4000

/-!
Shallow embedding of `Source/Urho3D/Glow/IncrementalLightBaker.cpp` (rbfx),
with theorems checking the specification claims about chunk ordering,
cancellation behaviour, buffer combination, chart indexing, cache loads,
the Initialize error paths, stitching, and commit.
-/

/-- Integer 3D vector (Urho3D `IntVector3`, three 32-bit ints modelled as `Int`). -/
structure IntVector3 where
  x : Int
  y : Int
  z : Int
deriving DecidableEq

/-- Component-wise addition of integer vectors (translation). -/
def addIV (a b : IntVector3) : IntVector3 := ⟨a.x + b.x, a.y + b.y, a.z + b.z⟩

/-- Model of `MinIntVector3` / `VectorMin`: per-component min for 3D integer vector. -/
def minIV (a b : IntVector3) : IntVector3 := ⟨min a.x b.x, min a.y b.y, min a.z b.z⟩

/-- Model of `static_cast<unsigned>` applied to a 32-bit int value: two's-complement residue mod 2^32. -/
def toU32 (z : Int) : Nat := (z % (2 ^ 32)).toNat

/-- The `xyz[j]` array built at the top of `Swizzle`: the j-th component of
`vec - base`, cast to `unsigned`. -/
def swizzleComponent (vec base : IntVector3) : Nat → Nat
  | 0 => toU32 (vec.x - base.x)
  | 1 => toU32 (vec.y - base.y)
  | _ => toU32 (vec.z - base.z)

/-- Function `Swizzle` from IncrementalLightBaker.cpp. It iterates
`maxBitsPerComponent = 64 / 3 = 21` bits for each of the three components and
ors `bit << (i * 3 + j)` into the accumulator; the accumulator `result` is
declared `unsigned` (32 bits), so each or-assignment truncates mod 2^32 even
though the function returns `unsigned long long`. -/
def Swizzle (vec base : IntVector3) : Nat :=
  (List.range 3).foldl
    (fun acc j =>
      (List.range 21).foldl
        (fun acc2 i =>
          let bit : Nat := if (swizzleComponent vec base j).testBit i then 1 else 0
          (acc2 ||| (bit <<< (i * 3 + j))) % 2 ^ 32)
        acc)
    0

/-- Insertion step of the deterministic key-ordered sort. -/
def insertByKey (key : IntVector3 → Nat) (x : IntVector3) : List IntVector3 → List IntVector3
  | [] => [x]
  | y :: ys => if key x < key y then x :: y :: ys else y :: insertByKey key x ys

/-- Deterministic comparison sort using only the strict key order: models
`ea::sort` with the `compareSwizzled` comparator `Swizzle lhs < Swizzle rhs`. -/
def sortByKey (key : IntVector3 → Nat) : List IntVector3 → List IntVector3
  | [] => []
  | x :: xs => insertByKey key x (sortByKey key xs)

/-- Chunk ordering performed in `Impl::Initialize`: if the chunk list is
nonempty, `baseChunkIndex` is `ea::accumulate` of `MinIntVector3` seeded with
the front element, and the list is sorted ascending by `Swizzle` relative to
that base. -/
def sortChunks : List IntVector3 → List IntVector3
  | [] => []
  | c :: rest =>
    sortByKey (fun v => Swizzle v ((c :: rest).foldl minIV c)) (c :: rest)

/-- C1 helper: the property claimed of the key bits, for one coordinate and
bit position: bit `i*3+j` of the key equals bit `i` of the j-th translated
coordinate. -/
def swizzleBitClaim (vec base : IntVector3) (i j : Nat) : Prop :=
  (Swizzle vec base).testBit (i * 3 + j) = (swizzleComponent vec base j).testBit i

instance (vec base : IntVector3) (i j : Nat) : Decidable (swizzleBitClaim vec base i j) := by
  unfold swizzleBitClaim; infer_instance

/-- Cooperative cancellation token: the value returned by `IsStopped` at the
n-th poll of the token (polls are counted from 0 across the whole `Bake`). -/
abbrev StopToken := Nat → Bool

/-- The slice of `BakedChunkVicinity` that the orchestrator reads:
the chunk's own lightmap indices (`lightmaps_`), the `lightmapIndex_` of each
raytracer geometry in the vicinity, and `numUniqueLightProbes_`. -/
structure BakedChunkVicinity where
  lightmaps : List Nat
  geometryLightmapIndices : List Nat
  numUniqueLightProbes : Nat
deriving DecidableEq

/-- Sentinel `M_MAX_UNSIGNED`, the invalid-lightmap-index sentinel. -/
def M_MAX_UNSIGNED : Nat := 4294967295

/-- Inner lightmap loop of `Impl::BakeDirectCharts`: before each lightmap's
work the token is polled; if stopped the function returns `false` without
storing; otherwise the direct buffer is baked and stored. Returns
(completed?, polls consumed so far, stored lightmap indices in store order). -/
def bakeDirectLoop (token : StopToken) :
    List Nat → Nat → List Nat → Bool × Nat × List Nat
  | [], polls, stored => (true, polls, stored)
  | lm :: rest, polls, stored =>
    if token polls then (false, polls + 1, stored)
    else bakeDirectLoop token rest (polls + 1) (stored ++ [lm])

/-- Model of `Impl::BakeDirectCharts`: for each chunk, load its vicinity and run the
lightmap loop; propagate cancellation. -/
def bakeDirectCharts (token : StopToken) :
    List BakedChunkVicinity → Nat → List Nat → Bool × Nat × List Nat
  | [], polls, stored => (true, polls, stored)
  | v :: rest, polls, stored =>
    let r := bakeDirectLoop token v.lightmaps polls stored
    if r.1 then bakeDirectCharts token rest r.2.1 r.2.2
    else (false, r.2.1, r.2.2)

/-- Observable events of `Impl::BakeIndirectAndFilter`, in program order. -/
inductive BakeEv where
  | poll
  | loadDirect (lightmapIndex : Nat)
  | storeLightmap (lightmapIndex : Nat)
  | probesIndirect
  | probesDirect
  | saveProbes (groupIndex : Nat)
deriving DecidableEq

/-- The `requiredDirectLightmaps` hash set: lightmap indices of raytracer
geometries that are not the sentinel, first occurrences kept. -/
def requiredDirectLightmaps (geomIndices : List Nat) : List Nat :=
  (geomIndices.filter (fun i => i ≠ M_MAX_UNSIGNED)).dedup

/-- Inner lightmap loop of `Impl::BakeIndirectAndFilter`: before each
lightmap's work the token is polled; if stopped the function returns `false`;
otherwise the chunk's own direct buffer is loaded (`LoadDirectLight`), the
indirect buffer is baked, normalized, filtered, combined, and the final
lightmap stored. Returns (completed?, polls consumed, events). -/
def indirectLightmapLoop (token : StopToken) :
    List Nat → Nat → Bool × Nat × List BakeEv
  | [], polls => (true, polls, [])
  | lm :: rest, polls =>
    if token polls then (false, polls + 1, [BakeEv.poll])
    else
      let r := indirectLightmapLoop token rest (polls + 1)
      (r.1, r.2.1, BakeEv.poll :: BakeEv.loadDirect lm :: BakeEv.storeLightmap lm :: r.2.2)

/-- One chunk's body in `Impl::BakeIndirectAndFilter`: load the required
direct lightmaps, bake indirect light for the probes, run the lightmap loop,
and — only if the loop completed — bake direct light for the probes and save
every probe group (a save failure is logged, never aborts). -/
def indirectChunkBody (token : StopToken) (v : BakedChunkVicinity) (polls : Nat) :
    Bool × Nat × List BakeEv :=
  let loads := (requiredDirectLightmaps v.geometryLightmapIndices).map BakeEv.loadDirect
  let r := indirectLightmapLoop token v.lightmaps polls
  if r.1 then
    (true, r.2.1,
      loads ++ [BakeEv.probesIndirect] ++ r.2.2 ++ [BakeEv.probesDirect] ++
        (List.range v.numUniqueLightProbes).map BakeEv.saveProbes)
  else (false, r.2.1, loads ++ [BakeEv.probesIndirect] ++ r.2.2)

/-- Model of `Impl::BakeIndirectAndFilter` over the sorted chunk list. -/
def bakeIndirectAndFilter (token : StopToken) :
    List BakedChunkVicinity → Nat → Bool × Nat × List BakeEv
  | [], polls => (true, polls, [])
  | v :: rest, polls =>
    let r := indirectChunkBody token v polls
    if r.1 then
      let r2 := bakeIndirectAndFilter token rest r.2.1
      (r2.1, r2.2.1, r.2.2 ++ r2.2.2)
    else (false, r.2.1, r.2.2)

/-- Model of `IncrementalLightBaker::Bake`: direct phase, then (only on success) the
indirect phase. Returns (success, direct buffers stored in order, whether the
indirect phase was entered). -/
def bake (chunks : List BakedChunkVicinity) (token : StopToken) :
    Bool × List Nat × Bool :=
  let d := bakeDirectCharts token chunks 0 []
  if d.1 then ((bakeIndirectAndFilter token chunks d.2.1).1, d.2.2, true)
  else (false, d.2.2, false)

/-- The lightmap indices of all chunks, in traversal (store) order. -/
def allLightmaps (chunks : List BakedChunkVicinity) : List Nat :=
  (chunks.map (fun v => v.lightmaps)).flatten

/-- The arguments of the `LoadDirectLight` events of a trace, in order. -/
def directLoadsOf (evs : List BakeEv) : List Nat :=
  evs.filterMap (fun e =>
    match e with
    | BakeEv.loadDirect i => some i
    | _ => none)

/-- Per-texel color: three channels, the float channels modelled as rationals. -/
abbrev Vec3 := ℚ × ℚ × ℚ

/-- Four-component texel (rgb plus alpha). -/
abbrev Vec4 := ℚ × ℚ × ℚ × ℚ

/-- Model of `VectorMax(Vector3::ZERO, v)`: channel-wise clamp to non-negative. -/
def vmax0 (v : Vec3) : Vec3 := (max 0 v.1, max 0 v.2.1, max 0 v.2.2)

/-- Channel-wise addition of texel colors. -/
def vadd3 (a b : Vec3) : Vec3 := (a.1 + b.1, a.2.1 + b.2.1, a.2.2 + b.2.2)

/-- The final-lightmap loop of `Impl::BakeIndirectAndFilter`:
`bakedLightmap.lightmap_[i] = VectorMax(0, direct[i]) + VectorMax(0, indirect[i])`
for every texel index `i`, the direct and indirect buffers being dense
texel-indexed arrays. -/
def combineLightmap (numTexels : Nat) (direct indirect : Nat → Vec3) : List Vec3 :=
  (List.range numTexels).map (fun i => vadd3 (vmax0 (direct i)) (vmax0 (indirect i)))

/-- Modelled from the spec: `GenerateLightmapCharts` (LightmapCharter.cpp, not
part of the examined source) is given the running chart counter as base index
and assigns the generated charts the lightmap indices base, base+1, ...; a
chunk's geometry is abstracted to the number of charts it produces. -/
def generateLightmapCharts (numCharts baseIndex : Nat) : List Nat :=
  List.range' baseIndex numCharts

/-- Model of `Impl::GenerateChartsAndUpdateScene`: fold over the chunk list, passing the
running `numLightmapCharts_` as base index and advancing it by the chunk's
chart count; afterwards the scene's lightmap list is reset and repopulated
with one entry per chart index. Returns (per-chunk assigned indices, final
chart count, scene lightmap entries as their indices). -/
def generateChartsAndUpdateScene (chunkChartCounts : List Nat) :
    List (List Nat) × Nat × List Nat :=
  let p := chunkChartCounts.foldl
    (fun (acc : List (List Nat) × Nat) c =>
      (acc.1 ++ [generateLightmapCharts c acc.2], acc.2 + c))
    ([], 0)
  (p.1, p.2, List.range p.2)

/-- Modelled from the spec: the extension-removal core of Urho3D
`ReplaceExtension(fileName, "")` (IO/FileSystem, not part of the examined
source) — on the reversed character list, drop everything up to and including
the first dot; `none` when a path separator or the start of the string is
reached before a dot (no extension). -/
def stripExtRev : List Char → Option (List Char)
  | [] => none
  | c :: rest =>
    if c = '.' then some rest
    else if c = '/' ∨ c = '\\' then none
    else stripExtRev rest

/-- Modelled from the spec: `ReplaceExtension(fileName, "")`, removing the
extension of the last path segment and returning the name unchanged when
there is none. -/
def replaceExtensionEmpty (s : String) : String :=
  match stripExtRev s.toList.reverse with
  | some r => String.mk r.reverse
  | none => s

/-- Modelled from the spec: `AddTrailingSlash` appends a slash when the
nonempty path does not already end with one. -/
def addTrailingSlash (s : String) : String :=
  if s = "" then s
  else if s.toList.getLast? = some '/' then s
  else s ++ "/"

/-- Modelled from the spec: `GetPath` keeps the directory part of a file name,
up to and including the last slash. -/
def getPath (s : String) : String :=
  String.mk ((s.toList.reverse.dropWhile (fun c => c ≠ '/')).reverse)

/-- Environment consumed by `Impl::Initialize`: the graphics backend's pixel
UV offset, the scene's persisted file name, oracles for the filesystem
operations `CreateDir` and `BinaryFile::SaveFile`, and the chunk set handed
back by the collector. -/
structure InitEnv where
  pixelUVOffset : ℚ × ℚ
  sceneFileName : String
  createDirOk : String → Bool
  saveFileOk : String → Bool
  chunks : List IntVector3

/-- The distinct error reports of `Impl::Initialize`, one per logged error. -/
inductive InitError where
  | unsupportedBackend
  | sceneNameUndefined
  | sceneNameNoExtension
  | cannotCreateOutputDir
  | cannotCreateGiDir
  | cannotSaveGiFile
deriving DecidableEq

/-- The resolved output directory: derived from the scene file name when the
configured directory is empty, then given a trailing slash. -/
def resolvedOutputDir (env : InitEnv) (outputDirectory : String) : String :=
  addTrailingSlash
    (if outputDirectory = "" then replaceExtensionEmpty env.sceneFileName
     else outputDirectory)

/-- Model of `Impl::Initialize`: the DX9 check, output-directory resolution and
creation, chunk collection and sort, and GI-data-file creation, with each
failure reported as its own error. On success returns the resolved output
directory and the sorted chunk list. -/
def implInit (env : InitEnv) (outputDirectory giDataFileName : String) :
    Except InitError (String × List IntVector3) :=
  if env.pixelUVOffset ≠ ((0 : ℚ), (0 : ℚ)) then Except.error InitError.unsupportedBackend
  else if outputDirectory = "" ∧ env.sceneFileName = "" then
    Except.error InitError.sceneNameUndefined
  else if outputDirectory = "" ∧ replaceExtensionEmpty env.sceneFileName = env.sceneFileName then
    Except.error InitError.sceneNameNoExtension
  else if env.createDirOk (resolvedOutputDir env outputDirectory) = false then
    Except.error InitError.cannotCreateOutputDir
  else if env.createDirOk
      (getPath (resolvedOutputDir env outputDirectory ++ giDataFileName)) = false then
    Except.error InitError.cannotCreateGiDir
  else if env.saveFileOk (resolvedOutputDir env outputDirectory ++ giDataFileName) = false then
    Except.error InitError.cannotSaveGiFile
  else Except.ok (resolvedOutputDir env outputDirectory, sortChunks env.chunks)

/-- The per-lightmap buffer fill in `Impl::StitchAndSaveImages`: when the
configured stitch iteration count is positive and the lightmap's seam list is
nonempty, the external seam solver (an oracle here) fills the buffer;
otherwise `buffer[i] = Vector4(lightmap[i], 1)` for each of the `numTexels`
texels. -/
def computeExportBuffer (stitchOracle : List Vec3 → List Vec4)
    (numIterations : Nat) (seams : List Nat) (lightmap : List Vec3)
    (numTexels : Nat) : List Vec4 :=
  if numIterations > 0 ∧ seams ≠ [] then stitchOracle lightmap
  else
    (List.range numTexels).map
      (fun i => ((lightmap.getD i (0, 0, 0)).1, (lightmap.getD i (0, 0, 0)).2.1,
        (lightmap.getD i (0, 0, 0)).2.2, (1 : ℚ)))

/-- Observable events of `Impl::StitchAndSaveImages` / `CommitScene`. -/
inductive CommitEv where
  | logError
  | loadVicinity
  | loadLightmap (lightmapIndex : Nat)
  | saveImage (lightmapIndex : Nat)
deriving DecidableEq

/-- Model of `Impl::StitchAndSaveImages`: when the reusable lightmap image cannot be
allocated (`Image::SetSize` fails, oracle `setSizeOk = false`) an error is
logged and the function returns before processing any chunk; otherwise every
chunk's vicinity is loaded and each of its lightmaps is loaded, composed into
the image and saved. -/
def stitchAndSaveImages (setSizeOk : Bool) (chunks : List (List Nat)) : List CommitEv :=
  if setSizeOk = false then [CommitEv.logError]
  else
    (chunks.map (fun lms =>
      CommitEv.loadVicinity ::
        (lms.map (fun i => [CommitEv.loadLightmap i, CommitEv.saveImage i])).flatten)).flatten

/-- Model of `IncrementalLightBaker::CommitScene`: runs `StitchAndSaveImages` to
completion. -/
def commitScene (setSizeOk : Bool) (chunks : List (List Nat)) : List CommitEv :=
  stitchAndSaveImages setSizeOk chunks


/-- C1: the failing theorem direction packaged as evaluation at the failing
input (see the bug analysis). -/
theorem swizzle_truncates_bit33 :
    Swizzle ⟨2048, 0, 0⟩ ⟨0, 0, 0⟩ = 0 ∧
    ¬ swizzleBitClaim ⟨2048, 0, 0⟩ ⟨0, 0, 0⟩ 11 0 ∧
    (swizzleComponent ⟨2048, 0, 0⟩ ⟨0, 0, 0⟩ 0).testBit 11 = true := by
  refine ⟨by decide, by decide, by decide⟩

theorem allLightmaps_cons (v : BakedChunkVicinity) (rest : List BakedChunkVicinity) :
    allLightmaps (v :: rest) = v.lightmaps ++ allLightmaps rest := by
  simp [allLightmaps]

theorem bakeDirectLoop_run (token : StopToken) (lms : List Nat) :
    ∀ (p0 : Nat) (s0 : List Nat),
      (∀ i, i < lms.length → token (p0 + i) = false) →
      bakeDirectLoop token lms p0 s0 = (true, p0 + lms.length, s0 ++ lms) := by
  induction lms with
  | nil => intro p0 s0 _; simp [bakeDirectLoop]
  | cons lm rest ih =>
    intro p0 s0 h
    have h0 : token p0 = false := by simpa using h 0 (by simp)
    have hrec := ih (p0 + 1) (s0 ++ [lm]) (fun i hi => by
      have := h (i + 1) (by simpa using Nat.succ_lt_succ hi)
      simpa [Nat.add_comm, Nat.add_assoc, Nat.add_left_comm] using this)
    simp only [bakeDirectLoop, h0, Bool.false_eq_true, if_false, hrec,
      List.length_cons, List.append_assoc, List.singleton_append]
    refine congrArg (fun n => ((true : Bool), n, s0 ++ lm :: rest)) ?_
    omega

theorem bakeDirectLoop_stop (token : StopToken) (lms : List Nat) :
    ∀ (p0 k : Nat) (s0 : List Nat), k < lms.length →
      (∀ i, i < k → token (p0 + i) = false) → token (p0 + k) = true →
      bakeDirectLoop token lms p0 s0 = (false, p0 + k + 1, s0 ++ lms.take k) := by
  induction lms with
  | nil => intro p0 k s0 hk _ _; simp at hk
  | cons lm rest ih =>
    intro p0 k s0 hk hlt hstop
    cases k with
    | zero =>
      have h0 : token p0 = true := by simpa using hstop
      simp [bakeDirectLoop, h0]
    | succ k =>
      have h0 : token p0 = false := by simpa using hlt 0 (Nat.succ_pos k)
      have hrec := ih (p0 + 1) k (s0 ++ [lm])
        (by simpa using Nat.lt_of_succ_lt_succ hk)
        (fun i hi => by
          have := hlt (i + 1) (Nat.succ_lt_succ hi)
          simpa [Nat.add_comm, Nat.add_assoc, Nat.add_left_comm] using this)
        (by
          have := hstop
          simpa [Nat.add_comm, Nat.add_assoc, Nat.add_left_comm] using this)
      simp only [bakeDirectLoop, h0, Bool.false_eq_true, if_false, hrec,
        List.take_succ_cons, List.append_assoc, List.singleton_append]
      refine congrArg (fun n => ((false : Bool), n, s0 ++ lm :: rest.take k)) ?_
      omega

theorem bakeDirectCharts_run (token : StopToken) (chunks : List BakedChunkVicinity) :
    ∀ (p0 : Nat) (s0 : List Nat),
      (∀ i, i < (allLightmaps chunks).length → token (p0 + i) = false) →
      bakeDirectCharts token chunks p0 s0 =
        (true, p0 + (allLightmaps chunks).length, s0 ++ allLightmaps chunks) := by
  induction chunks with
  | nil => intro p0 s0 _; simp [bakeDirectCharts, allLightmaps]
  | cons v rest ih =>
    intro p0 s0 h
    rw [allLightmaps_cons] at h ⊢
    have hloop := bakeDirectLoop_run token v.lightmaps p0 s0 (fun i hi =>
      h i (by simpa using Nat.lt_of_lt_of_le hi (by simp)))
    have hrec := ih (p0 + v.lightmaps.length) (s0 ++ v.lightmaps) (fun i hi => by
      have := h (v.lightmaps.length + i) (by simp; omega)
      simpa [Nat.add_assoc] using this)
    simp only [bakeDirectCharts, hloop, if_true, hrec, List.length_append,
      List.append_assoc]
    refine congrArg (fun n => ((true : Bool), n, s0 ++ (v.lightmaps ++ allLightmaps rest))) ?_
    omega

theorem bakeDirectCharts_stop (token : StopToken) (chunks : List BakedChunkVicinity) :
    ∀ (p0 K : Nat) (s0 : List Nat), K < (allLightmaps chunks).length →
      (∀ i, i < K → token (p0 + i) = false) → token (p0 + K) = true →
      bakeDirectCharts token chunks p0 s0 =
        (false, p0 + K + 1, s0 ++ (allLightmaps chunks).take K) := by
  induction chunks with
  | nil => intro p0 K s0 hK _ _; simp [allLightmaps] at hK
  | cons v rest ih =>
    intro p0 K s0 hK hlt hstop
    rw [allLightmaps_cons] at hK ⊢
    by_cases hcase : K < v.lightmaps.length
    · have hloop := bakeDirectLoop_stop token v.lightmaps p0 K s0 hcase hlt hstop
      have htake : (v.lightmaps ++ allLightmaps rest).take K = v.lightmaps.take K := by
        rw [List.take_append_eq_append_take, Nat.sub_eq_zero_of_le (Nat.le_of_lt hcase)]
        simp
      simp [bakeDirectCharts, hloop, htake]
    · push_neg at hcase
      have hloop := bakeDirectLoop_run token v.lightmaps p0 s0 (fun i hi =>
        hlt i (Nat.lt_of_lt_of_le hi hcase))
      have hrec := ih (p0 + v.lightmaps.length) (K - v.lightmaps.length) (s0 ++ v.lightmaps)
        (by simp at hK ⊢; omega)
        (fun i hi => by
          have := hlt (v.lightmaps.length + i) (by omega)
          simpa [Nat.add_assoc] using this)
        (by
          have harith : p0 + v.lightmaps.length + (K - v.lightmaps.length) = p0 + K := by omega
          rw [harith]; exact hstop)
      have htake : (v.lightmaps ++ allLightmaps rest).take K =
          v.lightmaps ++ (allLightmaps rest).take (K - v.lightmaps.length) := by
        rw [List.take_append_eq_append_take, List.take_of_length_le hcase]
      simp only [bakeDirectCharts, hloop, if_true, hrec, htake, List.append_assoc]
      refine congrArg
        (fun n => ((false : Bool), n,
          s0 ++ (v.lightmaps ++ (allLightmaps rest).take (K - v.lightmaps.length)))) ?_
      omega

/-- C2: if the cancellation token first reads stopped at its K-th poll and at
least K+1 lightmaps exist, `BakeDirectCharts` returns `false` after storing
exactly the first K direct buffers (the in-progress one is never stored), and
`Bake` returns `false` without entering the indirect phase. -/
theorem bake_cancelled_after_K_stores (chunks : List BakedChunkVicinity)
    (token : StopToken) (K : Nat)
    (hlt : ∀ p, p < K → token p = false) (hstop : token K = true)
    (hK : K < (allLightmaps chunks).length) :
    bake chunks token = (false, (allLightmaps chunks).take K, false) := by
  have hd := bakeDirectCharts_stop token chunks 0 K [] hK
    (fun i hi => by simpa using hlt i hi) (by simpa using hstop)
  simp [bake, hd]

/-- C2 witness: two chunks with lightmaps [10, 20] and [30]; the token stops
at poll 1, so exactly one buffer (10) is stored and the indirect phase never
runs. -/
theorem bake_cancelled_after_K_stores_witness :
    bake [⟨[10, 20], [], 0⟩, ⟨[30], [], 0⟩] (fun p => decide (1 ≤ p)) =
      (false, [10], false) :=
  bake_cancelled_after_K_stores _ _ 1
    (fun p hp => by
      have hp0 : p = 0 := by omega
      subst hp0; rfl)
    rfl (by decide)

theorem minIV_add (a b t : IntVector3) :
    minIV (addIV a t) (addIV b t) = addIV (minIV a b) t := by
  simp only [minIV, addIV, IntVector3.mk.injEq]
  refine ⟨?_, ?_, ?_⟩ <;> exact (min_add_add_right ..)

theorem foldl_minIV_map (t : IntVector3) :
    ∀ (l : List IntVector3) (a : IntVector3),
      (l.map (fun v => addIV v t)).foldl minIV (addIV a t) = addIV (l.foldl minIV a) t
  | [], _ => rfl
  | b :: l, a => by
    simp only [List.map_cons, List.foldl_cons, minIV_add]
    exact foldl_minIV_map t l (minIV a b)

theorem swizzleComponent_translate (v b t : IntVector3) (j : Nat) :
    swizzleComponent (addIV v t) (addIV b t) j = swizzleComponent v b j := by
  rcases j with _ | _ | j <;>
  · simp only [swizzleComponent, addIV]
    congr 1
    ring

theorem swizzle_translate (v b t : IntVector3) :
    Swizzle (addIV v t) (addIV b t) = Swizzle v b := by
  unfold Swizzle
  simp only [swizzleComponent_translate]

theorem insertByKey_map (key keym : IntVector3 → Nat) (f : IntVector3 → IntVector3)
    (hk : ∀ v, keym (f v) = key v) (x : IntVector3) :
    ∀ l : List IntVector3, insertByKey keym (f x) (l.map f) = (insertByKey key x l).map f
  | [] => rfl
  | y :: ys => by
    simp only [List.map_cons, insertByKey, hk]
    by_cases h : key x < key y
    · simp [h]
    · simp [h, insertByKey_map key keym f hk x ys]

theorem sortByKey_map (key keym : IntVector3 → Nat) (f : IntVector3 → IntVector3)
    (hk : ∀ v, keym (f v) = key v) :
    ∀ l : List IntVector3, sortByKey keym (l.map f) = (sortByKey key l).map f
  | [] => rfl
  | x :: xs => by
    simp only [List.map_cons, sortByKey]
    rw [sortByKey_map key keym f hk xs, insertByKey_map key keym f hk]

/-- C8: sorting a chunk set and sorting the set translated by any integer
vector `t` yield the same relative order: the Morton keys are computed
relative to the accumulated component-wise minimum, which translates along
with the chunks, so `sortChunks` commutes with translation. -/
theorem sortChunks_translation_invariant (chunks : List IntVector3) (t : IntVector3) :
    sortChunks (chunks.map (fun v => addIV v t)) =
      (sortChunks chunks).map (fun v => addIV v t) := by
  cases chunks with
  | nil => rfl
  | cons c rest =>
    simp only [List.map_cons, sortChunks]
    have hbase : (List.map (fun v => addIV v t) (c :: rest)).foldl minIV (addIV c t)
        = addIV ((c :: rest).foldl minIV c) t := foldl_minIV_map t (c :: rest) c
    simp only [List.map_cons] at hbase
    rw [hbase]
    exact sortByKey_map (fun v => Swizzle v ((c :: rest).foldl minIV c))
      (fun v => Swizzle v (addIV ((c :: rest).foldl minIV c) t))
      (fun v => addIV v t)
      (fun v => swizzle_translate v ((c :: rest).foldl minIV c) t) (c :: rest)

theorem directLoadsOf_append (a b : List BakeEv) :
    directLoadsOf (a ++ b) = directLoadsOf a ++ directLoadsOf b :=
  List.filterMap_append ..

theorem directLoadsOf_cons_poll (l : List BakeEv) :
    directLoadsOf (BakeEv.poll :: l) = directLoadsOf l := rfl

theorem directLoadsOf_cons_load (i : Nat) (l : List BakeEv) :
    directLoadsOf (BakeEv.loadDirect i :: l) = i :: directLoadsOf l := rfl

theorem directLoadsOf_cons_store (i : Nat) (l : List BakeEv) :
    directLoadsOf (BakeEv.storeLightmap i :: l) = directLoadsOf l := rfl

theorem directLoadsOf_map_load (l : List Nat) :
    directLoadsOf (l.map BakeEv.loadDirect) = l := by
  induction l with
  | nil => rfl
  | cons a l ih => simp [List.map_cons, directLoadsOf_cons_load, ih]

theorem directLoadsOf_map_save (l : List Nat) :
    directLoadsOf (l.map BakeEv.saveProbes) = [] := by
  induction l with
  | nil => rfl
  | cons a l ih =>
    have : directLoadsOf (BakeEv.saveProbes a :: l.map BakeEv.saveProbes) =
        directLoadsOf (l.map BakeEv.saveProbes) := rfl
    simp [List.map_cons, this, ih]

theorem indirectLightmapLoop_complete_eq (token : StopToken) (lms : List Nat) :
    ∀ polls, (indirectLightmapLoop token lms polls).1 = true →
      indirectLightmapLoop token lms polls =
        indirectLightmapLoop (fun _ => false) lms polls := by
  induction lms with
  | nil => intro polls _; rfl
  | cons lm rest ih =>
    intro polls h
    by_cases h0 : token polls
    · simp [indirectLightmapLoop, h0] at h
    · simp only [Bool.not_eq_true] at h0
      simp only [indirectLightmapLoop, h0, Bool.false_eq_true, if_false] at h ⊢
      rw [ih (polls + 1) h]

theorem indirectLightmapLoop_complete_loads (token : StopToken) (lms : List Nat) :
    ∀ polls, (indirectLightmapLoop token lms polls).1 = true →
      directLoadsOf (indirectLightmapLoop token lms polls).2.2 = lms := by
  induction lms with
  | nil => intro polls _; rfl
  | cons lm rest ih =>
    intro polls h
    by_cases h0 : token polls
    · simp [indirectLightmapLoop, h0] at h
    · simp only [Bool.not_eq_true] at h0
      simp only [indirectLightmapLoop, h0, Bool.false_eq_true, if_false] at h ⊢
      rw [directLoadsOf_cons_poll, directLoadsOf_cons_load, directLoadsOf_cons_store,
        ih (polls + 1) h]

/-- C5 counterexample: a vicinity whose raytracer geometry references no
lightmap but whose chunk owns lightmap 7 — the chunk body still loads the
direct buffer of lightmap 7, so the loaded set differs from the referenced
set. -/
theorem chunk_loads_not_exactly_required :
    ¬ ((directLoadsOf
          (indirectChunkBody (fun _ => false) ⟨[7], [], 0⟩ 0).2.2).toFinset =
        (requiredDirectLightmaps
          ((⟨[7], [], 0⟩ : BakedChunkVicinity)).geometryLightmapIndices).toFinset) := by
  decide

/-- C5 (amended): for every chunk whose body runs to completion, the set of
direct buffers loaded from the cache is the set referenced by ray-traceable
geometry (non-sentinel lightmap indices) together with the chunk's own
lightmap indices. -/
theorem chunk_loads_required_union_own (v : BakedChunkVicinity) (token : StopToken)
    (polls : Nat) (h : (indirectChunkBody token v polls).1 = true) :
    (directLoadsOf (indirectChunkBody token v polls).2.2).toFinset =
      (requiredDirectLightmaps v.geometryLightmapIndices).toFinset ∪
        v.lightmaps.toFinset := by
  have hloop : (indirectLightmapLoop token v.lightmaps polls).1 = true := by
    by_contra hc
    simp only [Bool.not_eq_true] at hc
    simp [indirectChunkBody, hc] at h
  simp only [indirectChunkBody, hloop, if_true]
  rw [directLoadsOf_append, directLoadsOf_append, directLoadsOf_append,
    directLoadsOf_append]
  rw [indirectLightmapLoop_complete_loads token v.lightmaps polls hloop]
  have h2 : directLoadsOf [BakeEv.probesIndirect] = [] := rfl
  have h3 : directLoadsOf [BakeEv.probesDirect] = [] := rfl
  rw [directLoadsOf_map_load, directLoadsOf_map_save, h2, h3]
  simp

/-- C5 witness: a chunk owning lightmap 5 whose geometry references lightmap 9
and the sentinel; the loaded set is {9} ∪ {5}. -/
theorem chunk_loads_required_union_own_witness :
    (directLoadsOf
        (indirectChunkBody (fun _ => false) ⟨[5], [9, M_MAX_UNSIGNED], 1⟩ 0).2.2).toFinset =
      (requiredDirectLightmaps [9, M_MAX_UNSIGNED]).toFinset ∪
        ([5] : List Nat).toFinset :=
  chunk_loads_required_union_own ⟨[5], [9, M_MAX_UNSIGNED], 1⟩ (fun _ => false) 0 (by decide)

theorem indirectChunkBody_emptyLightmaps (token : StopToken) (v : BakedChunkVicinity)
    (hv : v.lightmaps = []) (polls : Nat) :
    indirectChunkBody token v polls = indirectChunkBody (fun _ => false) v polls ∧
    (indirectChunkBody token v polls).1 = true ∧
    (indirectChunkBody token v polls).2.1 = polls := by
  have hl : ∀ tk : StopToken, indirectLightmapLoop tk v.lightmaps polls = (true, polls, []) := by
    intro tk; rw [hv]; rfl
  simp [indirectChunkBody, hl]

theorem bakeIndirectAndFilter_emptyLightmaps (token : StopToken) :
    ∀ (chunks : List BakedChunkVicinity), (∀ v ∈ chunks, v.lightmaps = []) →
      ∀ polls,
        bakeIndirectAndFilter token chunks polls =
          bakeIndirectAndFilter (fun _ => false) chunks polls ∧
        (bakeIndirectAndFilter token chunks polls).1 = true ∧
        (bakeIndirectAndFilter token chunks polls).2.1 = polls := by
  intro chunks
  induction chunks with
  | nil => intro _ polls; exact ⟨rfl, rfl, rfl⟩
  | cons v rest ih =>
    intro h polls
    have hv : v.lightmaps = [] := h v (by simp)
    have hbody := indirectChunkBody_emptyLightmaps token v hv polls
    have hrec := ih (fun w hw => h w (by simp [hw])) polls
    have hb1 : (indirectChunkBody (fun _ => false) v polls).1 = true := by
      rw [← hbody.1]; exact hbody.2.1
    have hb2 : (indirectChunkBody (fun _ => false) v polls).2.1 = polls := by
      rw [← hbody.1]; exact hbody.2.2
    simp [bakeIndirectAndFilter, hbody.1, hb1, hb2, hrec.1, hrec.2.1, hrec.2.2]
    exact ⟨by rw [← hrec.1]; exact hrec.2.1, by rw [← hrec.1]; exact hrec.2.2⟩

theorem allLightmaps_nil_of_empty (chunks : List BakedChunkVicinity)
    (h : ∀ v ∈ chunks, v.lightmaps = []) : allLightmaps chunks = [] := by
  induction chunks with
  | nil => rfl
  | cons v rest ih =>
    rw [allLightmaps_cons, h v (by simp), ih (fun w hw => h w (by simp [hw]))]
    rfl

/-- C9: the token is polled only at the head of each lightmap iteration: once
a chunk's lightmap loop completes, its probe baking and probe-data saving run
exactly as in a run whose token never stops; and for every chunk list in which
no chunk owns any lightmap (including the empty list), `Bake` performs all
per-chunk work (with zero polls in the direct phase) and returns true
regardless of the token's state. -/
theorem bake_poll_granularity :
    (∀ (token : StopToken) (v : BakedChunkVicinity) (polls : Nat),
        (indirectLightmapLoop token v.lightmaps polls).1 = true →
        indirectChunkBody token v polls = indirectChunkBody (fun _ => false) v polls) ∧
    (∀ (chunks : List BakedChunkVicinity) (token : StopToken),
        (∀ v ∈ chunks, v.lightmaps = []) →
        bakeDirectCharts token chunks 0 [] = (true, 0, []) ∧
        bakeIndirectAndFilter token chunks 0 =
          bakeIndirectAndFilter (fun _ => false) chunks 0 ∧
        bake chunks token = (true, [], true)) := by
  constructor
  · intro token v polls hloop
    simp only [indirectChunkBody,
      indirectLightmapLoop_complete_eq token v.lightmaps polls hloop]
  · intro chunks token h
    have hall : allLightmaps chunks = [] := allLightmaps_nil_of_empty chunks h
    have hdir := bakeDirectCharts_run token chunks 0 [] (fun i hi => by
      rw [hall] at hi
      simp at hi)
    rw [hall] at hdir
    simp only [List.length_nil, Nat.add_zero, List.append_nil] at hdir
    have hind := bakeIndirectAndFilter_emptyLightmaps token chunks h 0
    refine ⟨hdir, hind.1, ?_⟩
    simp [bake, hdir]
    exact hind.2.1

/-- C9 witness: a single chunk with no lightmaps, geometry referencing
lightmap 3 and two probe groups, under a token that is always stopped. -/
theorem bake_poll_granularity_witness :
    indirectChunkBody (fun _ => true) ⟨[], [3], 2⟩ 0 =
      indirectChunkBody (fun _ => false) ⟨[], [3], 2⟩ 0 ∧
    (bakeDirectCharts (fun _ => true) [⟨[], [3], 2⟩] 0 [] = (true, 0, []) ∧
      bakeIndirectAndFilter (fun _ => true) [⟨[], [3], 2⟩] 0 =
        bakeIndirectAndFilter (fun _ => false) [⟨[], [3], 2⟩] 0 ∧
      bake [⟨[], [3], 2⟩] (fun _ => true) = (true, [], true)) :=
  ⟨bake_poll_granularity.1 (fun _ => true) ⟨[], [3], 2⟩ 0 rfl,
   bake_poll_granularity.2 [⟨[], [3], 2⟩] (fun _ => true) (by decide)⟩

/-- C3: every texel of the stored final lightmap equals
`max(0, direct) + max(0, indirect)` channel-wise, and every channel of every
stored texel is ≥ 0, whatever (possibly negative) values the direct and
indirect intermediate buffers hold. -/
theorem combineLightmap_clamped_nonneg (numTexels : Nat)
    (direct indirect : Nat → Vec3) (i : Nat) (hi : i < numTexels) :
    (combineLightmap numTexels direct indirect).getD i (0, 0, 0) =
      vadd3 (vmax0 (direct i)) (vmax0 (indirect i)) ∧
    0 ≤ ((combineLightmap numTexels direct indirect).getD i (0, 0, 0)).1 ∧
    0 ≤ ((combineLightmap numTexels direct indirect).getD i (0, 0, 0)).2.1 ∧
    0 ≤ ((combineLightmap numTexels direct indirect).getD i (0, 0, 0)).2.2 := by
  have hval : (combineLightmap numTexels direct indirect).getD i (0, 0, 0) =
      vadd3 (vmax0 (direct i)) (vmax0 (indirect i)) := by
    rw [combineLightmap, List.getD_eq_getElem?_getD, List.getElem?_map,
      List.getElem?_range hi]
    rfl
  refine ⟨hval, ?_, ?_, ?_⟩ <;> rw [hval] <;>
    exact add_nonneg (le_max_left 0 _) (le_max_left 0 _)

/-- C3 witness: one texel with negative channels in both buffers; the stored
texel is (2, 0, 3) ≥ 0. -/
theorem combineLightmap_clamped_nonneg_witness :
    (combineLightmap 1 (fun _ => ((-1 : ℚ), -2, 3)) (fun _ => ((2 : ℚ), -5, -7))).getD 0 (0, 0, 0) =
      vadd3 (vmax0 ((-1 : ℚ), -2, 3)) (vmax0 ((2 : ℚ), -5, -7)) ∧
    0 ≤ ((combineLightmap 1 (fun _ => ((-1 : ℚ), -2, 3)) (fun _ => ((2 : ℚ), -5, -7))).getD 0 (0, 0, 0)).1 ∧
    0 ≤ ((combineLightmap 1 (fun _ => ((-1 : ℚ), -2, 3)) (fun _ => ((2 : ℚ), -5, -7))).getD 0 (0, 0, 0)).2.1 ∧
    0 ≤ ((combineLightmap 1 (fun _ => ((-1 : ℚ), -2, 3)) (fun _ => ((2 : ℚ), -5, -7))).getD 0 (0, 0, 0)).2.2 :=
  combineLightmap_clamped_nonneg 1 _ _ 0 (by decide)

theorem generateCharts_fold (counts : List Nat) :
    ∀ (acc : List (List Nat)) (n : Nat),
      ((counts.foldl
          (fun (a : List (List Nat) × Nat) c =>
            (a.1 ++ [generateLightmapCharts c a.2], a.2 + c)) (acc, n)).1).flatten =
        acc.flatten ++ List.range' n counts.sum ∧
      (counts.foldl
          (fun (a : List (List Nat) × Nat) c =>
            (a.1 ++ [generateLightmapCharts c a.2], a.2 + c)) (acc, n)).2 =
        n + counts.sum := by
  induction counts with
  | nil => intro acc n; simp
  | cons c cs ih =>
    intro acc n
    simp only [List.foldl_cons]
    have h := ih (acc ++ [generateLightmapCharts c n]) (n + c)
    refine ⟨?_, ?_⟩
    · rw [h.1, List.flatten_append]
      simp only [List.flatten_cons, List.flatten_nil, List.append_nil, List.sum_cons,
        List.append_assoc, generateLightmapCharts]
      rw [Nat.add_comm c cs.sum, ← List.range'_append_1]
    · rw [h.2, List.sum_cons]
      omega

/-- C4: after `GenerateChartsAndUpdateScene` runs over the whole chunk list,
the chart indices assigned across all chunks are exactly 0, 1, ...,
total - 1 in traversal order — globally unique (no duplicates) and contiguous
from 0 — the final counter is the total chart count, and the scene's lightmap
list holds exactly one entry per chart index. -/
theorem generateCharts_global_indices (counts : List Nat) :
    ((generateChartsAndUpdateScene counts).1).flatten = List.range counts.sum ∧
    ((generateChartsAndUpdateScene counts).1).flatten.Nodup ∧
    (generateChartsAndUpdateScene counts).2.1 = counts.sum ∧
    (generateChartsAndUpdateScene counts).2.2 = List.range counts.sum := by
  have h := generateCharts_fold counts [] 0
  have h1 : ((generateChartsAndUpdateScene counts).1).flatten = List.range counts.sum := by
    simp only [generateChartsAndUpdateScene]
    rw [h.1, List.range_eq_range']
    simp
  have h2 : (generateChartsAndUpdateScene counts).2.1 = counts.sum := by
    simp only [generateChartsAndUpdateScene]
    rw [h.2]
    omega
  have h3 : (generateChartsAndUpdateScene counts).2.2 = List.range counts.sum := by
    simp only [generateChartsAndUpdateScene]
    rw [h.2]
    simp
  exact ⟨h1, by rw [h1]; exact List.nodup_range counts.sum, h2, h3⟩

/-- C6: `Initialize` fails exactly in these cases, each with its own distinct
reported error: nonzero pixel UV offset (unsupported backend); output
directory unset and not derivable (scene file name empty, or without
extension); failure to create the output directory; failure to create the GI
data file's directory; failure to create the GI data file. Otherwise it
succeeds. -/
theorem implInit_failure_cases (env : InitEnv) (outDir giName : String) :
    (implInit env outDir giName = Except.error InitError.unsupportedBackend ↔
      env.pixelUVOffset ≠ ((0 : ℚ), (0 : ℚ))) ∧
    ((implInit env outDir giName = Except.error InitError.sceneNameUndefined ∨
        implInit env outDir giName = Except.error InitError.sceneNameNoExtension) ↔
      (env.pixelUVOffset = ((0 : ℚ), (0 : ℚ)) ∧ outDir = "" ∧
        (env.sceneFileName = "" ∨
          replaceExtensionEmpty env.sceneFileName = env.sceneFileName))) ∧
    (implInit env outDir giName = Except.error InitError.cannotCreateOutputDir ↔
      (env.pixelUVOffset = ((0 : ℚ), (0 : ℚ)) ∧
        ¬ (outDir = "" ∧ (env.sceneFileName = "" ∨
            replaceExtensionEmpty env.sceneFileName = env.sceneFileName)) ∧
        env.createDirOk (resolvedOutputDir env outDir) = false)) ∧
    (implInit env outDir giName = Except.error InitError.cannotCreateGiDir ↔
      (env.pixelUVOffset = ((0 : ℚ), (0 : ℚ)) ∧
        ¬ (outDir = "" ∧ (env.sceneFileName = "" ∨
            replaceExtensionEmpty env.sceneFileName = env.sceneFileName)) ∧
        env.createDirOk (resolvedOutputDir env outDir) = true ∧
        env.createDirOk (getPath (resolvedOutputDir env outDir ++ giName)) = false)) ∧
    (implInit env outDir giName = Except.error InitError.cannotSaveGiFile ↔
      (env.pixelUVOffset = ((0 : ℚ), (0 : ℚ)) ∧
        ¬ (outDir = "" ∧ (env.sceneFileName = "" ∨
            replaceExtensionEmpty env.sceneFileName = env.sceneFileName)) ∧
        env.createDirOk (resolvedOutputDir env outDir) = true ∧
        env.createDirOk (getPath (resolvedOutputDir env outDir ++ giName)) = true ∧
        env.saveFileOk (resolvedOutputDir env outDir ++ giName) = false)) ∧
    ((∃ r, implInit env outDir giName = Except.ok r) ↔
      (env.pixelUVOffset = ((0 : ℚ), (0 : ℚ)) ∧
        ¬ (outDir = "" ∧ (env.sceneFileName = "" ∨
            replaceExtensionEmpty env.sceneFileName = env.sceneFileName)) ∧
        env.createDirOk (resolvedOutputDir env outDir) = true ∧
        env.createDirOk (getPath (resolvedOutputDir env outDir ++ giName)) = true ∧
        env.saveFileOk (resolvedOutputDir env outDir ++ giName) = true)) := by
  unfold implInit
  split_ifs with h1 h2 h3 h4 h5 h6 <;> simp_all

/-- C7: with a configured stitch iteration count of 0, or an empty seam list,
the buffer handed to image export is the straight copy of the final lightmap
texels with the alpha channel forced to 1 (identical to the unstitched
lightmap in RGB). -/
theorem stitch_zero_iterations_is_copy (stitchOracle : List Vec3 → List Vec4)
    (numIterations : Nat) (seams : List Nat) (lightmap : List Vec3)
    (h : numIterations = 0 ∨ seams = []) :
    computeExportBuffer stitchOracle numIterations seams lightmap lightmap.length =
      lightmap.map (fun v => (v.1, v.2.1, v.2.2, (1 : ℚ))) := by
  have hcond : ¬ (numIterations > 0 ∧ seams ≠ []) := by
    rcases h with h | h <;> simp [h]
  rw [computeExportBuffer, if_neg hcond]
  apply List.ext_getElem
  · simp
  · intro i h1 h2
    have hi : i < lightmap.length := by simpa using h2
    simp only [List.getElem_map, List.getElem_range,
      List.getD_eq_getElem lightmap (0, 0, 0) hi]

/-- C7 witness: one texel, 0 iterations, nonempty seams. -/
theorem stitch_zero_iterations_is_copy_witness :
    computeExportBuffer (fun _ => []) 0 [1] [((2 : ℚ), -1, 3)] 1 =
      [((2 : ℚ), -1, 3, 1)] :=
  stitch_zero_iterations_is_copy (fun _ => []) 0 [1] [((2 : ℚ), -1, 3)] (Or.inl rfl)

/-- C10: if the reusable lightmap image cannot be allocated,
`StitchAndSaveImages` logs an error and returns before processing any chunk,
so `CommitScene` completes without loading any final lightmap and without
saving any image file. -/
theorem commitScene_image_alloc_failure (chunks : List (List Nat)) :
    commitScene false chunks = [CommitEv.logError] ∧
    (∀ i, CommitEv.loadLightmap i ∉ commitScene false chunks) ∧
    (∀ i, CommitEv.saveImage i ∉ commitScene false chunks) := by
  refine ⟨rfl, ?_, ?_⟩ <;> intro i <;> simp [commitScene, stitchAndSaveImages]
